import Mathlib

/-!
Shallow embedding of the CloudScope in-browser replication simulator:
`replica.js` (Replica, Version), `network.js` (Message, Connection),
`utils.js` (Sequence, random), `config.js` (consts, config), together with
the consistency validator's pairwise distance metrics.

JavaScript object references are modeled arena-style: the shared `Version`
objects live in `World.versions` keyed by version id, and each replica's
`files` map stores the ids it holds.  `Date.now()` is an explicit `now`
parameter and `Math.random()` an explicit draw parameter, so every
operation is a pure function of its inputs.
-/

namespace Cloudscope

/-! ## config.js -/

namespace consts

/-- Network connection type tag (config.js). -/
def CONSTANT : String := "constant"

/-- Network connection type tag (config.js). -/
def VARIABLE : String := "variable"

/-- The acknowledgment message payload (config.js). -/
def ACK : String := "ACK"

end consts

/-! ## JavaScript truthiness helpers

`x || y` in JavaScript falls through to `y` whenever `x` is falsy; for the
option fields of the Version constructor the falsy values that can matter
are `null`/`undefined` (modeled `none`), the number `0` and the string
`""`. -/

/-- JS `x || d` for an optional number: a present `0` is falsy and falls
through to the default, exactly like `null`/`undefined`. -/
def jsOrNat : Option Nat → Nat → Nat
  | some v, d => if v = 0 then d else v
  | none, d => d

/-- JS `x || null` for an optional number (`0` is falsy). -/
def jsOrNull : Option Nat → Option Nat
  | some v => if v = 0 then none else some v
  | none => none

/-- JS `x || null` for an optional string (`""` is falsy). -/
def jsOrNullStr : Option String → Option String
  | some s => if s = "" then none else some s
  | none => none

/-! ## Version (replica.js) -/

/-- The value stored in a Version's `creator` field.  `Replica.create`
writes `creator: self`, and `create` has no `var self = this` binding (cf.
`recv`/`broadcast`/`draw`, which do), so `self` there resolves to the
browser global object (the window); `windowRef` models that object.
`replicaRef id` models a reference to the replica with that id. -/
inductive CreatorRef where
  | replicaRef (id : Nat)
  | windowRef
deriving DecidableEq

/-- Version meta data (replica.js).  `parent` is `none` for a root write
(the JS code passes the falsy sentinel `0`, and real ids start at `1`) and
`some id` for a fork (the JS code stores a reference to the forked-from
object; the arena embedding stores its id). -/
structure Version where
  parent : Option Nat
  version : Nat
  creator : Option CreatorRef
  level : Option String
  created : Nat
  updated : Option Nat
  replicas : Nat
  replicated : Option Nat
deriving DecidableEq

/-- The options object passed to the Version constructor. -/
structure VersionOptions where
  creator : Option CreatorRef
  level : Option String
  created : Option Nat
  updated : Option Nat
deriving DecidableEq

/-- Version.init.  `seq` is the value of the module-level shared
`utils.Sequence` and `now` is `Date.now()`.  `sequence.next()` increments
the counter and returns the new value, so the constructed version carries
id `seq + 1` and the advanced counter is returned alongside. -/
def Version.init (parent : Option Nat) (options : VersionOptions) (seq now : Nat) :
    Version × Nat :=
  (⟨parent, seq + 1, options.creator, jsOrNullStr options.level,
    jsOrNat options.created now, jsOrNull options.updated, 1, none⟩, seq + 1)

/-- Version.fork.  The code first executes `this.updated = Date.now()` —
mutating the forked-from version in place — and then constructs the new
version with `_.defaults` drawn from the mutated original (creator, level,
created, updated).  Returns (fork, mutated original, advanced sequence). -/
def Version.fork (v : Version) (seq now : Nat) : Version × Version × Nat :=
  let orig := { v with updated := some now }
  let options : VersionOptions := ⟨orig.creator, orig.level, some orig.created, orig.updated⟩
  let (f, seqF) := Version.init (some v.version) options seq now
  (f, orig, seqF)

/-- Version.addReplica: increment the replica counter, and stamp
`replicated` with the current time exactly when the counter reaches the
network size `n` (`sim.nodes.length`). -/
def Version.addReplica (v : Version) (n now : Nat) : Version :=
  let v' : Version := { v with replicas := v.replicas + 1 }
  if v'.replicas = n then { v' with replicated := some now } else v'

/-! ## Connection and Message (network.js) -/

/-- Models `random.randint(lo, hi)` from utils.js — a uniform random
integer in `[lo, hi]`: the external random draw is supplied as `draw` and
reduced into the requested range. -/
def randint (draw lo hi : Nat) : Nat := lo + draw % (hi + 1 - lo)

/-- A link's latency field: either a single number or a `[min, max]` pair. -/
inductive Latency where
  | const (ms : Nat)
  | range (lo hi : Nat)
deriving DecidableEq

/-- network.js Connection (unidirectional; the simulation loader installs
one in each direction per topology link). -/
structure Connection where
  source : Nat
  target : Nat
  ctype : String
  latency : Latency
deriving DecidableEq

/-- Connection.getLatency, scaled by `config.slowmo`.  A `variable`
connection draws `randint` over its `[min, max]` range (with a scalar
latency the JS index accesses yield `undefined`, and `randint` falls back
to its `[0, 1]` defaults); a `constant` connection returns its scalar
latency (a range latency there would be NaN in JS and never occurs for
well-formed links, modeled as 0). -/
def Connection.getLatency (c : Connection) (draw slowmo : Nat) : Nat :=
  if c.ctype = consts.VARIABLE then
    match c.latency with
    | .range lo hi => randint draw lo hi * slowmo
    | .const _ => randint draw 0 1 * slowmo
  else
    match c.latency with
    | .const ms => ms * slowmo
    | .range _ _ => 0

/-- A message payload: a Version (by arena id) or the consts.ACK string. -/
inductive Payload where
  | ack
  | ver (id : Nat)
deriving DecidableEq

/-- network.js Message.  `cls` is the JS `class` option (a Lean keyword).
The `trigger` option's side effect — a delayed `recv` on the target — is
the scheduler and is not part of the message data. -/
structure Message where
  source : Nat
  target : Nat
  payload : Payload
  delay : Nat
  cls : String
deriving DecidableEq

/-! ## Replica and the simulation world (replica.js, simulation.js) -/

/-- replica.js Replica.  `files` holds the version ids of this replica's
log (the shared objects live in `World.versions`); `comms` holds the
outgoing connections, keyed in JS by their target replica id.  `rtype` is
the JS field `type`. -/
structure Replica where
  id : Nat
  label : String
  rtype : String
  consistency : String
  files : List Nat
  comms : List Connection
deriving DecidableEq

/-- The state shared by all replicas of one simulation: the module-level
version-id sequence, the arena of Version objects keyed by id, the node
list (`sim.nodes`), and `config.slowmo`. -/
structure World where
  seq : Nat
  versions : List (Nat × Version)
  replicas : List Replica
  slowmo : Nat
deriving DecidableEq

/-- Association-list lookup in the version arena (JS object indexing). -/
def alookup : List (Nat × Version) → Nat → Option Version
  | [], _ => none
  | (k, v) :: rest, i => if k = i then some v else alookup rest i

/-- Pointwise update of one arena entry — mutation of the shared object. -/
def aupdate : List (Nat × Version) → Nat → (Version → Version) → List (Nat × Version)
  | [], _, _ => []
  | (k, v) :: rest, i, f =>
      if k = i then (k, f v) :: rest else (k, v) :: aupdate rest i f

/-- Lookup of a replica object by id in `sim.nodes`. -/
def findReplica (w : World) (rid : Nat) : Option Replica :=
  w.replicas.find? (fun r => r.id == rid)

/-- `this.comms[dst]`: lookup of a connection by its target id. -/
def Replica.findConn (r : Replica) (dst : Nat) : Option Connection :=
  r.comms.find? (fun c => c.target == dst)

/-- Failure outcomes.  `typeError` is what the JavaScript engine actually
throws (a property access on `undefined`); `notFoundError` and
`unknownPeerError` are the error names the design-level documentation
assigns to the same situations — the code never constructs them, which the
theorems below make precise. -/
inductive JsError where
  | typeError (msg : String)
  | notFoundError (msg : String)
  | unknownPeerError (msg : String)
deriving DecidableEq

/-- Whether an error is the design-level NotFoundError. -/
def JsError.isNotFoundError : JsError → Bool
  | .notFoundError _ => true
  | _ => false

/-- Whether an error is the design-level UnknownPeerError. -/
def JsError.isUnknownPeerError : JsError → Bool
  | .unknownPeerError _ => true
  | _ => false

/-- The options argument of Replica.send (delay and class overrides). -/
structure SendOptions where
  delay : Option Nat
  cls : Option String
deriving DecidableEq

/-- Replica.send: look up the connection for `dst`; `_.defaults` fills in
the delay from `conn.getLatency()` when the caller supplied none.  The
lookup of an unknown peer yields `undefined`, so the `conn.getLatency()`
call inside the defaults throws a TypeError.  Otherwise the Message
constructor fills the remaining option defaults. -/
def Replica.send (r : Replica) (msg : Payload) (dst : Nat) (options : SendOptions)
    (draw slowmo : Nat) : Except JsError Message :=
  match r.findConn dst with
  | none => .error (.typeError "Cannot read property getLatency of undefined")
  | some conn =>
      .ok ⟨r.id, conn.target, msg,
           options.delay.getD (conn.getLatency draw slowmo),
           options.cls.getD "message"⟩

/-- Replica.broadcast: send the payload over every connection (the JS
iterates `comms` and calls `send` with each link's target id).  `draw`
supplies the random latency draw per target. -/
def Replica.broadcast (r : Replica) (msg : Payload) (draw : Nat → Nat) (slowmo : Nat) :
    List (Except JsError Message) :=
  r.comms.map (fun conn => r.send msg conn.target ⟨none, none⟩ (draw conn.target) slowmo)

/-- Replace the files of the replica object with the given id — the JS
mutates one replica object in place; node ids are unique in a loaded
simulation. -/
def World.setFiles (w : World) (rid : Nat) (files : List Nat) : World :=
  { w with replicas :=
      w.replicas.map (fun x => if x.id = rid then { x with files := files } else x) }

/-- Result of Replica.create: the new world and the broadcast messages. -/
structure CreateResult where
  world : World
  broadcasts : List (Except JsError Message)

/-- Replica.create: construct `new Version(0, {creator: self, level:
this.consistency})` — where `self` is the browser global object, see
`CreatorRef.windowRef` — store it under its id, and broadcast it.
`sim.updateState()` only redraws the legend and touches no model state.
The `none` branch is unreachable: `create` is a method of an existing
replica object. -/
def Replica.create (w : World) (rid : Nat) (draw : Nat → Nat) (now : Nat) : CreateResult :=
  match findReplica w rid with
  | none => ⟨w, []⟩
  | some r =>
      let (vers, seq') := Version.init none
        ⟨some CreatorRef.windowRef, some r.consistency, none, none⟩ w.seq now
      let w' := { w.setFiles r.id (r.files ++ [vers.version]) with
                    seq := seq',
                    versions := w.versions ++ [(vers.version, vers)] }
      ⟨w', r.broadcast (.ver vers.version) draw w.slowmo⟩

/-- Result of Replica.update: the new world, the broadcast messages, and
the JS exception if one was thrown. -/
structure UpdateResult where
  world : World
  broadcasts : List (Except JsError Message)
  error : Option JsError

/-- Replica.update: `var vers = this.files[version]; var fork =
vers.fork();` — an absent id yields `undefined`, and the `.fork()` call
throws a TypeError before any state is touched.  On success the
forked-from object is mutated in place (its `updated` field, inside
`fork`), the fork is stored in the arena and under its id in this
replica's files, and broadcast.  The replica-missing and
id-in-files-but-not-in-arena branches are unreachable (a method needs its
object; files only ever store allocated ids). -/
def Replica.update (w : World) (rid vid : Nat) (draw : Nat → Nat) (now : Nat) :
    UpdateResult :=
  match findReplica w rid with
  | none => ⟨w, [], some (.typeError "Cannot read property fork of undefined")⟩
  | some r =>
      if vid ∈ r.files then
        match alookup w.versions vid with
        | none => ⟨w, [], some (.typeError "Cannot read property fork of undefined")⟩
        | some vers =>
            let (f, orig, seq') := vers.fork w.seq now
            let w' := { w.setFiles r.id (r.files ++ [f.version]) with
                          seq := seq',
                          versions := aupdate w.versions vid (fun _ => orig)
                                        ++ [(f.version, f)] }
            ⟨w', r.broadcast (.ver f.version) draw w.slowmo, none⟩
      else ⟨w, [], some (.typeError "Cannot read property fork of undefined")⟩

/-- Result of Replica.recv: the new world, the rebroadcast clones, the ACK
response if one was built, and the JS exception if one was thrown. -/
structure RecvResult where
  world : World
  rebroadcasts : List Message
  ack : Option Message
  error : Option JsError

/-- Replica.recv, invoked by the scheduler on `msg.target`.  An ACK
payload returns immediately.  A Version payload whose id is already in
`files` changes no state; a new one is stored, `addReplica`d with the node
count, and cloned to every connection whose target is not the message's
source (the clone keeps the original payload and class).  Finally an ACK
Message is built towards the source: reading
`this.comms[msg.source.id].getLatency()` throws a TypeError if the source
is not a connected peer — the state changes above persist in that case,
exactly as in JS.  The replica-missing branch is unreachable (`recv` is
invoked as a method of the target object). -/
def Replica.recv (w : World) (msg : Message) (draw : Nat → Nat) (now : Nat) : RecvResult :=
  match msg.payload with
  | .ack => ⟨w, [], none, none⟩
  | .ver vid =>
    match findReplica w msg.target with
    | none => ⟨w, [], none, none⟩
    | some r =>
      let wNew := { w.setFiles r.id (r.files ++ [vid]) with
                      versions := aupdate w.versions vid
                        (fun v => v.addReplica w.replicas.length now) }
      let w1 := if vid ∈ r.files then w else wNew
      let rebroadcasts : List Message :=
        if vid ∈ r.files then [] else
          (r.comms.filter (fun conn => conn.target ≠ msg.source)).map
            (fun conn => ⟨r.id, conn.target, msg.payload,
                          conn.getLatency (draw conn.target) w.slowmo, msg.cls⟩)
      match r.findConn msg.source with
      | some conn =>
          ⟨w1, rebroadcasts,
           some ⟨r.id, msg.source, .ack,
                 conn.getLatency (draw msg.source) w.slowmo, "response"⟩,
           none⟩
      | none => ⟨w1, rebroadcasts, none,
                 some (.typeError "Cannot read property getLatency of undefined")⟩

/-! ## Observations used to state the theorems -/

/-- The files (log keys) of the replica with the given id. -/
def World.filesOf (w : World) (rid : Nat) : List Nat :=
  ((findReplica w rid).map Replica.files).getD []

/-- The replica counter of the arena version with the given id. -/
def World.replicaCountOf (w : World) (vid : Nat) : Option Nat :=
  (alookup w.versions vid).map Version.replicas

/-- How many replicas hold the given version id in their files. -/
def World.holders (w : World) (vid : Nat) : Nat :=
  (w.replicas.filter (fun r => vid ∈ r.files)).length

/-- Reachable-world bookkeeping: node ids and arena keys are unique, and
every arena entry's replica counter equals the number of replicas holding
its id, with `replicated` stamped exactly at full replication. -/
def World.Coherent (w : World) : Prop :=
  (w.replicas.map Replica.id).Nodup ∧
  (w.versions.map Prod.fst).Nodup ∧
  ∀ p ∈ w.versions,
    (p : Nat × Version).2.replicas = w.holders p.1 ∧
    ((p : Nat × Version).2.replicated.isSome ↔ p.2.replicas = w.replicas.length)

instance (w : World) : Decidable w.Coherent := by
  unfold World.Coherent
  infer_instance

/-! ## Version construction runs (utils.Sequence) -/

/-- One Version construction request: the arguments of `new Version`. -/
structure InitReq where
  parent : Option Nat
  options : VersionOptions
  now : Nat

/-- An arbitrary interleaving of Version constructions in one run,
threading the single shared sequence — `create`, `update`/`fork` and
direct construction all allocate through `Version.init`. -/
def constructRun : Nat → List InitReq → List Version × Nat
  | seq, [] => ([], seq)
  | seq, q :: rest =>
      let (v, seq') := Version.init q.parent q.options seq q.now
      let (vs, seqF) := constructRun seq' rest
      (v :: vs, seqF)

/-! ## Consistency validator distances

Modelled from the spec: the consistency validator source is not part of
this repository snapshot (only its report fixture documents it), so the
two pairwise log-distance metrics are taken from the spec's own words. -/

/-- Modelled from the spec: Jaccard distance between two logs, `1 − |A ∩
B| / |A ∪ B|` over their sets of version ids (content-only comparison,
duplicates collapse). -/
def jaccardDistance (A B : List Nat) : ℚ :=
  1 - ((A.toFinset ∩ B.toFinset).card : ℚ) / ((A.toFinset ∪ B.toFinset).card : ℚ)

/-- Modelled from the spec: Levenshtein edit distance (unit-cost
insertion, deletion and substitution) between two logs as ordered
sequences of version ids. -/
def levDistance : List Nat → List Nat → Nat
  | [], ys => ys.length
  | x :: xs, [] => (x :: xs).length
  | a :: xs, b :: ys =>
      min (min (levDistance xs (b :: ys) + 1) (levDistance (a :: xs) ys + 1))
          (levDistance xs ys + (if a = b then 0 else 1))
termination_by xs ys => xs.length + ys.length

/-- Modelled from the spec: the Levenshtein distance normalized by the
length of the longer sequence, to land in `[0, 1]`. -/
def normLevDistance (A B : List Nat) : ℚ :=
  (levDistance A B : ℚ) / (max A.length B.length : ℚ)

/-! ## Concrete fixtures used by witnesses and counterexamples -/

/-- A constant-latency connection from replica 0 to replica 1. -/
def connAB : Connection := ⟨0, 1, "constant", .const 500⟩

/-- A constant-latency connection from replica 1 to replica 0. -/
def connBA : Connection := ⟨1, 0, "constant", .const 500⟩

/-- Replica 0 of the two-node fixture; holds version 1. -/
def replA : Replica := ⟨0, "Alpha", "storage", "strong", [1], [connAB]⟩

/-- Replica 1 of the two-node fixture; empty log. -/
def replB : Replica := ⟨1, "Beta", "storage", "strong", [], [connBA]⟩

/-- A root version created at replica 0, held there only. -/
def versionOne : Version := ⟨none, 1, some (.replicaRef 0), some "strong", 50, none, 1, none⟩

/-- A two-node world in which version 1 exists at replica 0 and has not
yet reached replica 1. -/
def wAB : World := ⟨1, [(1, versionOne)], [replA, replB], 1⟩

/-- A message from replica 0 to replica 1 carrying version 1. -/
def msgAB : Message := ⟨0, 1, .ver 1, 500, "message"⟩

/-- A fixed random draw for latency sampling. -/
def drawZero : Nat → Nat := fun _ => 0

/-! ## List and arena lemmas -/

/-- Mapping a function that fixes every member is the identity. -/
theorem list_map_id_of_fix {α : Type} {l : List α} {f : α → α} (h : ∀ a ∈ l, f a = a) :
    l.map f = l := by
  induction l with
  | nil => rfl
  | cons x xs ih =>
      simp only [List.map_cons, h x (List.mem_cons_self x xs),
        ih fun a ha => h a (List.mem_cons_of_mem x ha)]

/-- Updating the arena entry for `k` changes exactly what `alookup k`
sees, by the update function. -/
theorem alookup_aupdate_self (l : List (Nat × Version)) (k : Nat) (f : Version → Version) :
    alookup (aupdate l k f) k = (alookup l k).map f := by
  induction l with
  | nil => rfl
  | cons p rest ih =>
      obtain ⟨k', v⟩ := p
      by_cases hk : k' = k
      · subst hk; simp [aupdate, alookup]
      · simp [aupdate, alookup, hk, ih]

/-- Updating the arena entry for `k` leaves every other key's lookup
unchanged. -/
theorem alookup_aupdate_ne (l : List (Nat × Version)) {k i : Nat} (f : Version → Version)
    (h : i ≠ k) : alookup (aupdate l k f) i = alookup l i := by
  induction l with
  | nil => rfl
  | cons p rest ih =>
      obtain ⟨k', v⟩ := p
      by_cases hk : k' = k
      · subst hk
        simp only [aupdate, if_pos rfl, alookup]
        rw [if_neg fun hh => h hh.symm, if_neg fun hh => h hh.symm]
      · simp only [aupdate, if_neg hk, alookup]
        by_cases hki : k' = i
        · simp [hki]
        · simp [hki, ih]

/-- `aupdate` preserves the arena's key list. -/
theorem aupdate_map_fst (l : List (Nat × Version)) (k : Nat) (f : Version → Version) :
    (aupdate l k f).map Prod.fst = l.map Prod.fst := by
  induction l with
  | nil => rfl
  | cons p rest ih =>
      obtain ⟨k', v⟩ := p
      by_cases hk : k' = k <;> simp [aupdate, hk, ih]

/-- A successful arena lookup comes from a list entry. -/
theorem mem_of_alookup_eq_some {l : List (Nat × Version)} {k : Nat} {v : Version}
    (h : alookup l k = some v) : (k, v) ∈ l := by
  induction l with
  | nil => simp [alookup] at h
  | cons p rest ih =>
      obtain ⟨k', v'⟩ := p
      by_cases hk : k' = k
      · subst hk
        simp only [alookup, if_pos] at h
        injection h with h2
        subst h2
        exact List.mem_cons_self _ _
      · simp only [alookup, if_neg hk] at h
        exact List.mem_cons_of_mem _ (ih h)

/-- With unique keys, every list entry is what its key's lookup returns. -/
theorem alookup_eq_some_of_mem {l : List (Nat × Version)} {k : Nat} {v : Version}
    (hnd : (l.map Prod.fst).Nodup) (h : (k, v) ∈ l) : alookup l k = some v := by
  induction l with
  | nil => simp at h
  | cons p rest ih =>
      obtain ⟨k', v'⟩ := p
      rw [List.map_cons, List.nodup_cons] at hnd
      rcases List.mem_cons.mp h with heq | hmem
      · obtain ⟨rfl, rfl⟩ := Prod.mk.inj heq
        simp [alookup]
      · have hkin : k ∈ rest.map Prod.fst := List.mem_map_of_mem Prod.fst hmem
        have hk : k' ≠ k := by
          intro hh
          subst hh
          exact hnd.1 hkin
        simp only [alookup, if_neg hk]
        exact ih hnd.2 hmem

/-- `find?` over the replica list after a files replacement on the found
replica's id returns the updated replica. -/
theorem find?_map_setFiles (l : List Replica) (t : Nat) (r : Replica) (fs : List Nat)
    (hf : l.find? (fun x => x.id == t) = some r) :
    (l.map fun x => if x.id = r.id then { x with files := fs } else x).find?
        (fun x => x.id == t) = some { r with files := fs } := by
  induction l with
  | nil => simp at hf
  | cons x xs ih =>
      cases hx : (x.id == t) with
      | true =>
          simp only [List.find?_cons, hx] at hf
          obtain rfl : x = r := by injection hf
          rw [List.map_cons, if_pos rfl]
          simp only [List.find?_cons]
          have hx' : ({ x with files := fs } : Replica).id == t := hx
          rw [hx']
      | false =>
          simp only [List.find?_cons, hx] at hf
          have hrt : (r.id == t) = true := by simpa using List.find?_some hf
          have hxr : x.id ≠ r.id := by
            intro hh
            rw [hh, hrt] at hx
            exact absurd hx (by simp)
          rw [List.map_cons, if_neg hxr]
          simp only [List.find?_cons, hx]
          exact ih hf

/-- World-level corollary of `find?_map_setFiles`. -/
theorem findReplica_setFiles {w : World} {t : Nat} {r : Replica} (fs : List Nat)
    (hr : findReplica w t = some r) :
    findReplica (w.setFiles r.id fs) t = some { r with files := fs } := by
  unfold findReplica World.setFiles at *
  exact find?_map_setFiles w.replicas t r fs hr

/-- Replacing one replica's files preserves the node count. -/
theorem setFiles_replicas_length (w : World) (rid : Nat) (fs : List Nat) :
    (w.setFiles rid fs).replicas.length = w.replicas.length := by
  unfold World.setFiles
  simp

/-- Replacing one replica's files preserves the node id list. -/
theorem setFiles_map_id (w : World) (rid : Nat) (fs : List Nat) :
    (w.setFiles rid fs).replicas.map Replica.id = w.replicas.map Replica.id := by
  unfold World.setFiles
  simp only [List.map_map]
  have h : (Replica.id ∘ fun x => if x.id = rid then { x with files := fs } else x)
      = Replica.id := by
    funext x
    by_cases hh : x.id = rid <;> simp [hh]
  rw [h]

/-- Some replica does not hold `vid`, so the holder count is strictly
below the node count. -/
theorem holders_lt_of_not_mem {w : World} {r : Replica} {vid : Nat}
    (hmem : r ∈ w.replicas) (hnot : vid ∉ r.files) :
    w.holders vid < w.replicas.length := by
  unfold World.holders
  exact List.length_filter_lt_length_iff_exists.mpr ⟨r, hmem, by simpa using hnot⟩

/-! ## Theorems for the claims -/

/-- C4 (amended): forking returns a new Version carrying the next shared
sequence id, a `parent` referencing the forked-from version, `created`
copied from the original and `updated` set to the fork time — but the
original Version is mutated in place: its `updated` field is set to the
fork time (all other fields unchanged).  The two nonzero side conditions
exclude the JavaScript falsy-zero edge of `options.created || Date.now()`
and `options.updated || null`; `Date.now()` timestamps are positive. -/
theorem C4_fork_shape (v : Version) (seq now : Nat) (hc : v.created ≠ 0) (hn : now ≠ 0) :
    (v.fork seq now).1.version = seq + 1 ∧
    (v.fork seq now).1.parent = some v.version ∧
    (v.fork seq now).1.created = v.created ∧
    (v.fork seq now).1.updated = some now ∧
    (v.fork seq now).2.1 = { v with updated := some now } ∧
    (v.fork seq now).2.2 = seq + 1 := by
  simp [Version.fork, Version.init, jsOrNat, jsOrNull, hc, hn]

/-- Witness for C4_fork_shape at a concrete version and fork time. -/
theorem C4_fork_shape_witness :
    versionOne.created ≠ 0 ∧ (100 : Nat) ≠ 0 ∧
    ((versionOne.fork 1 100).1.version = 1 + 1 ∧
     (versionOne.fork 1 100).1.parent = some versionOne.version ∧
     (versionOne.fork 1 100).1.created = versionOne.created ∧
     (versionOne.fork 1 100).1.updated = some 100 ∧
     (versionOne.fork 1 100).2.1 = { versionOne with updated := some 100 } ∧
     (versionOne.fork 1 100).2.2 = 1 + 1) :=
  ⟨by decide, by decide, C4_fork_shape versionOne 1 100 (by decide) (by decide)⟩

/-- C4 counterexample: fork mutates the forked-from Version in place —
after `versionOne.fork 1 100` the original is no longer the version we
started from (its `updated` field was set to the fork time). -/
theorem C4_fork_counterexample : (versionOne.fork 1 100).2.1 ≠ versionOne := by decide

/-- C5: across any interleaving of Version constructions threaded through
the single shared sequence, the allocated ids are exactly the consecutive
outputs of that sequence — strictly increasing in construction order and
unique — and the sequence advances once per construction. -/
theorem C5_sequence_ids (seq : Nat) (reqs : List InitReq) :
    ((constructRun seq reqs).1.map Version.version) = List.range' (seq + 1) reqs.length ∧
    ((constructRun seq reqs).1.map Version.version).Pairwise (· < ·) ∧
    ((constructRun seq reqs).1.map Version.version).Nodup ∧
    (constructRun seq reqs).2 = seq + reqs.length := by
  have key : ∀ (rs : List InitReq) (s : Nat),
      ((constructRun s rs).1.map Version.version) = List.range' (s + 1) rs.length ∧
      (constructRun s rs).2 = s + rs.length := by
    intro rs
    induction rs with
    | nil => intro s; simp [constructRun]
    | cons q rest ih =>
        intro s
        obtain ⟨ih1, ih2⟩ := ih (s + 1)
        constructor
        · simp [constructRun, Version.init, ih1]
          rw [List.range'_succ]
        · simp [constructRun, Version.init, ih2]
          omega
  obtain ⟨h1, h2⟩ := key reqs seq
  have hpw : ((constructRun seq reqs).1.map Version.version).Pairwise (· < ·) := by
    rw [h1]
    exact List.pairwise_lt_range' _ _
  exact ⟨h1, hpw, hpw.imp fun h => Nat.ne_of_lt h, h2⟩

/-- A single-replica fresh world used to evaluate `create`. -/
def replSolo : Replica := ⟨0, "Solo", "storage", "strong", [], [connAB]⟩

/-- A fresh world: empty arena, sequence at 0, one replica. -/
def w8 : World := ⟨0, [], [replSolo], 1⟩

/-- `x || null` is the identity away from the falsy empty string. -/
theorem jsOrNullStr_of_ne {o : Option String} (h : o ≠ some "") : jsOrNullStr o = o := by
  cases o with
  | none => rfl
  | some s =>
      have hs : s ≠ "" := fun hh => h (by rw [hh])
      simp [jsOrNullStr, hs]

/-- C3 (amended): `update` on a versionId absent from the log fails — but
with the engine TypeError raised by calling `.fork()` on the `undefined`
lookup result, not with the design-level NotFoundError — and it leaves
the world, in particular this replica's log, unchanged: the exception is
thrown before any state is touched. -/
theorem C3_update_absent (w : World) (rid vid : Nat) (r : Replica)
    (draw : Nat → Nat) (now : Nat)
    (hr : findReplica w rid = some r) (habs : vid ∉ r.files) :
    Replica.update w rid vid draw now =
      ⟨w, [], some (.typeError "Cannot read property fork of undefined")⟩ := by
  simp [Replica.update, hr, habs]

/-- Witness for C3_update_absent: updating id 5, never inserted at
replica 0, errors and changes nothing. -/
theorem C3_update_absent_witness :
    findReplica wAB 0 = some replA ∧ (5 : Nat) ∉ replA.files ∧
    Replica.update wAB 0 5 drawZero 10 =
      ⟨wAB, [], some (.typeError "Cannot read property fork of undefined")⟩ :=
  ⟨by decide, by decide,
   C3_update_absent wAB 0 5 replA drawZero 10 (by decide) (by decide)⟩

/-- C3 counterexample: at a concrete replica and an id never inserted,
`update` does raise an error — but not a NotFoundError. -/
theorem C3_update_absent_counterexample :
    ((Replica.update wAB 0 5 drawZero 10).error.map JsError.isNotFoundError) = some false := by
  decide

/-- C7 (amended): `send` to a peerId not in `comms` fails — with the
engine TypeError raised by calling `getLatency()` on the `undefined`
lookup result, not the design-level UnknownPeerError; for a known peer
the scheduled Message's delay is `options.delay` when supplied and the
Connection's `getLatency()` value otherwise. -/
theorem C7_send_delay (r : Replica) (p : Payload) (dst : Nat) (options : SendOptions)
    (draw slowmo : Nat) :
    (r.findConn dst = none →
      r.send p dst options draw slowmo =
        .error (.typeError "Cannot read property getLatency of undefined")) ∧
    (∀ conn, r.findConn dst = some conn →
      r.send p dst options draw slowmo =
        .ok ⟨r.id, conn.target, p, options.delay.getD (conn.getLatency draw slowmo),
             options.cls.getD "message"⟩ ∧
      ∀ d, options.delay = some d →
        options.delay.getD (conn.getLatency draw slowmo) = d) := by
  constructor
  · intro h
    simp [Replica.send, h]
  · intro conn h
    refine ⟨by simp [Replica.send, h], ?_⟩
    intro d hd
    simp [hd]

/-- Witness for C7_send_delay: both the connected-peer delay equation and
the unknown-peer failure, at replica 0 of the fixture. -/
theorem C7_send_delay_witness :
    replA.findConn 1 = some connAB ∧
    (replA.send (.ver 1) 1 ⟨none, none⟩ 0 1 =
      .ok ⟨replA.id, connAB.target, .ver 1,
           (⟨none, none⟩ : SendOptions).delay.getD (connAB.getLatency 0 1),
           (⟨none, none⟩ : SendOptions).cls.getD "message"⟩) ∧
    replA.findConn 7 = none ∧
    replA.send (.ver 1) 7 ⟨none, none⟩ 0 1 =
      .error (.typeError "Cannot read property getLatency of undefined") :=
  ⟨by decide,
   ((C7_send_delay replA (.ver 1) 1 ⟨none, none⟩ 0 1).2 connAB (by decide)).1,
   by decide,
   (C7_send_delay replA (.ver 1) 7 ⟨none, none⟩ 0 1).1 (by decide)⟩

/-- C7 counterexample: send to an unknown peer raises a TypeError — not
the UnknownPeerError the claim names. -/
theorem C7_send_delay_counterexample :
    replA.send (.ver 1) 7 ⟨none, none⟩ 0 1 =
      .error (.typeError "Cannot read property getLatency of undefined") ∧
    JsError.isUnknownPeerError (.typeError "Cannot read property getLatency of undefined")
      = false :=
  ⟨rfl, rfl⟩

/-- C8, the code evaluated at the failing input: `create` on replica 0 of
a fresh world mints a root version (parent `none`) at the replica's
consistency level, stores it under its id and broadcasts it — but the
version's `creator` is the browser global object (`windowRef`), not the
replica: `create` lacks the `var self = this` binding that `recv`,
`broadcast` and `draw` all have, so `creator: self` captures the
window. -/
theorem C8_create_creator_window :
    (Replica.create w8 0 drawZero 100).world.versions =
      [(1, ⟨none, 1, some CreatorRef.windowRef, some "strong", 100, none, 1, none⟩)] ∧
    (Replica.create w8 0 drawZero 100).world.filesOf 0 = [1] ∧
    (Replica.create w8 0 drawZero 100).broadcasts =
      [Except.ok ⟨0, 1, .ver 1, 500, "message"⟩] ∧
    CreatorRef.windowRef ≠ CreatorRef.replicaRef 0 :=
  ⟨by decide, by decide, rfl, by decide⟩

/-- C10: the fork stored by `update(versionId)` inherits `creator` and
`level` from the original Version — fork's `_.defaults` copies them from
`this` — not from the updating replica; its parent is the forked-from id
and it is allocated fresh at the next sequence id.  The side condition
excludes the JS falsy-empty-string edge of `options.level || null`
(consistency levels are nonempty strings). -/
theorem C10_update_fork_inherits (w : World) (rid vid : Nat) (r : Replica) (v : Version)
    (draw : Nat → Nat) (now : Nat)
    (hr : findReplica w rid = some r) (hmem : vid ∈ r.files)
    (hv : alookup w.versions vid = some v) (hlvl : v.level ≠ some "") :
    (Replica.update w rid vid draw now).error = none ∧
    ∃ f : Version,
      (Replica.update w rid vid draw now).world.versions =
        aupdate w.versions vid (fun _ => { v with updated := some now })
          ++ [(w.seq + 1, f)] ∧
      f.creator = v.creator ∧ f.level = v.level ∧
      f.parent = some v.version ∧ f.version = w.seq + 1 := by
  constructor
  · simp [Replica.update, hr, hv, hmem, Version.fork, Version.init]
  · refine ⟨⟨some v.version, w.seq + 1, v.creator, v.level,
      jsOrNat (some v.created) now, jsOrNull (some now), 1, none⟩, ?_, rfl, rfl, rfl, rfl⟩
    simp [Replica.update, hr, hv, hmem, Version.fork, Version.init,
      jsOrNullStr_of_ne hlvl]

/-- Witness for C10_update_fork_inherits: replica 0 updates version 1 of
the fixture world. -/
theorem C10_update_fork_inherits_witness :
    findReplica wAB 0 = some replA ∧ (1 : Nat) ∈ replA.files ∧
    alookup wAB.versions 1 = some versionOne ∧ versionOne.level ≠ some "" ∧
    ((Replica.update wAB 0 1 drawZero 200).error = none ∧
     ∃ f : Version,
       (Replica.update wAB 0 1 drawZero 200).world.versions =
         aupdate wAB.versions 1 (fun _ => { versionOne with updated := some 200 })
           ++ [(wAB.seq + 1, f)] ∧
       f.creator = versionOne.creator ∧ f.level = versionOne.level ∧
       f.parent = some versionOne.version ∧ f.version = wAB.seq + 1) :=
  ⟨by decide, by decide, by decide, by decide,
   C10_update_fork_inherits wAB 0 1 replA versionOne drawZero 200
     (by decide) (by decide) (by decide) (by decide)⟩

/-- `addReplica` increments the replica counter by exactly one. -/
theorem addReplica_replicas (v : Version) (n now : Nat) :
    (v.addReplica n now).replicas = v.replicas + 1 := by
  unfold Version.addReplica
  by_cases h : v.replicas + 1 = n <;> simp [h]

/-- `addReplica` stamps `replicated` exactly when the incremented counter
reaches `n`. -/
theorem addReplica_replicated (v : Version) (n now : Nat) :
    (v.addReplica n now).replicated =
      if v.replicas + 1 = n then some now else v.replicated := by
  unfold Version.addReplica
  by_cases h : v.replicas + 1 = n <;> simp [h]

/-- C1: receiving a Message carrying a Version whose id is not yet in the
log inserts the id into the receiver's log, increments the shared
Version's replica counter by exactly one, rebroadcasts the Version to
every connected peer except the message's immediate sender, and sends an
ACK back to the sender.  (The simulation loader installs connections in
both directions per link, so a delivered message's sender is always a
connected peer — the `hconn` hypothesis.) -/
theorem C1_recv_new (w : World) (msg : Message) (draw : Nat → Nat) (now vid : Nat)
    (r : Replica) (v : Version) (conn : Connection)
    (hp : msg.payload = .ver vid)
    (hr : findReplica w msg.target = some r)
    (hnew : vid ∉ r.files)
    (hv : alookup w.versions vid = some v)
    (hconn : r.findConn msg.source = some conn) :
    findReplica (Replica.recv w msg draw now).world msg.target =
        some { r with files := r.files ++ [vid] } ∧
    alookup (Replica.recv w msg draw now).world.versions vid =
        some (v.addReplica w.replicas.length now) ∧
    (v.addReplica w.replicas.length now).replicas = v.replicas + 1 ∧
    (∀ m ∈ (Replica.recv w msg draw now).rebroadcasts,
        m.source = r.id ∧ m.payload = .ver vid ∧ m.target ≠ msg.source ∧
        ∃ c ∈ r.comms, c.target = m.target) ∧
    (∀ c ∈ r.comms, c.target ≠ msg.source →
        ∃ m ∈ (Replica.recv w msg draw now).rebroadcasts, m.target = c.target) ∧
    (Replica.recv w msg draw now).ack =
        some ⟨r.id, msg.source, .ack, conn.getLatency (draw msg.source) w.slowmo,
              "response"⟩ ∧
    (Replica.recv w msg draw now).error = none := by
  have hred : Replica.recv w msg draw now =
      ⟨{ w.setFiles r.id (r.files ++ [vid]) with
           versions := aupdate w.versions vid
             (fun x => x.addReplica w.replicas.length now) },
        (r.comms.filter (fun c => c.target ≠ msg.source)).map
          (fun c => ⟨r.id, c.target, .ver vid,
                     c.getLatency (draw c.target) w.slowmo, msg.cls⟩),
        some ⟨r.id, msg.source, .ack, conn.getLatency (draw msg.source) w.slowmo,
              "response"⟩,
        none⟩ := by
    simp [Replica.recv, hp, hr, hnew, hconn]
  rw [hred]
  refine ⟨?_, ?_, addReplica_replicas v _ now, ?_, ?_, rfl, rfl⟩
  · exact findReplica_setFiles (r.files ++ [vid]) hr
  · rw [alookup_aupdate_self, hv]
    rfl
  · intro m hm
    simp only [List.mem_map, List.mem_filter] at hm
    obtain ⟨c, ⟨hc, hcs⟩, rfl⟩ := hm
    exact ⟨rfl, rfl, by simpa using hcs, c, hc, rfl⟩
  · intro c hc hne
    exact ⟨⟨r.id, c.target, .ver vid, c.getLatency (draw c.target) w.slowmo, msg.cls⟩,
      List.mem_map_of_mem _ (List.mem_filter.mpr ⟨hc, by simpa using hne⟩), rfl⟩

/-- Witness for C1_recv_new: replica 1 of the fixture receives version 1
from replica 0 for the first time. -/
theorem C1_recv_new_witness :
    msgAB.payload = .ver 1 ∧
    findReplica wAB 1 = some replB ∧
    (1 : Nat) ∉ replB.files ∧
    alookup wAB.versions 1 = some versionOne ∧
    replB.findConn 0 = some connBA ∧
    (findReplica (Replica.recv wAB msgAB drawZero 300).world msgAB.target =
        some { replB with files := replB.files ++ [1] } ∧
     alookup (Replica.recv wAB msgAB drawZero 300).world.versions 1 =
        some (versionOne.addReplica wAB.replicas.length 300) ∧
     (versionOne.addReplica wAB.replicas.length 300).replicas = versionOne.replicas + 1 ∧
     (∀ m ∈ (Replica.recv wAB msgAB drawZero 300).rebroadcasts,
         m.source = replB.id ∧ m.payload = .ver 1 ∧ m.target ≠ msgAB.source ∧
         ∃ c ∈ replB.comms, c.target = m.target) ∧
     (∀ c ∈ replB.comms, c.target ≠ msgAB.source →
         ∃ m ∈ (Replica.recv wAB msgAB drawZero 300).rebroadcasts, m.target = c.target) ∧
     (Replica.recv wAB msgAB drawZero 300).ack =
        some ⟨replB.id, msgAB.source, .ack,
              connBA.getLatency (drawZero msgAB.source) wAB.slowmo, "response"⟩ ∧
     (Replica.recv wAB msgAB drawZero 300).error = none) :=
  ⟨by decide, by decide, by decide, by decide, by decide,
   C1_recv_new wAB msgAB drawZero 300 1 replB versionOne connBA
     (by decide) (by decide) (by decide) (by decide) (by decide)⟩

/-- C2: `recv` is idempotent in the Version id — the first delivery grows
the receiver's log by one entry and the Version's replica counter by one;
a second delivery of any message carrying the same Version id to the same
replica leaves the whole world (log and counters included) unchanged. -/
theorem C2_recv_idempotent (w : World) (msg msg2 : Message) (draw draw2 : Nat → Nat)
    (now now2 vid : Nat) (r : Replica) (v : Version)
    (hp : msg.payload = .ver vid) (hr : findReplica w msg.target = some r)
    (hnew : vid ∉ r.files) (hv : alookup w.versions vid = some v)
    (hp2 : msg2.payload = .ver vid) (ht2 : msg2.target = msg.target) :
    ((Replica.recv w msg draw now).world.filesOf msg.target).length
        = (w.filesOf msg.target).length + 1 ∧
    (Replica.recv w msg draw now).world.replicaCountOf vid = some (v.replicas + 1) ∧
    (Replica.recv (Replica.recv w msg draw now).world msg2 draw2 now2).world
        = (Replica.recv w msg draw now).world := by
  have hw1 : (Replica.recv w msg draw now).world =
      { w.setFiles r.id (r.files ++ [vid]) with
          versions := aupdate w.versions vid
            (fun x => x.addReplica w.replicas.length now) } := by
    cases hcs : r.findConn msg.source with
    | none => simp [Replica.recv, hp, hr, hnew, hcs]
    | some c => simp [Replica.recv, hp, hr, hnew, hcs]
  have hfind : findReplica (Replica.recv w msg draw now).world msg.target =
      some { r with files := r.files ++ [vid] } := by
    rw [hw1]
    exact findReplica_setFiles (r.files ++ [vid]) hr
  refine ⟨?_, ?_, ?_⟩
  · simp [World.filesOf, hfind, hr]
  · rw [hw1]
    unfold World.replicaCountOf
    simp only [alookup_aupdate_self, hv, Option.map_map, Option.map_some]
    simp [addReplica_replicas]
  · have hfind2 : findReplica (Replica.recv w msg draw now).world msg2.target =
        some { r with files := r.files ++ [vid] } := by
      rw [ht2]
      exact hfind
    have hmem2 : vid ∈ ({ r with files := r.files ++ [vid] } : Replica).files := by
      simp
    generalize hW : (Replica.recv w msg draw now).world = w1 at hfind2 ⊢
    cases hcs2 : ({ r with files := r.files ++ [vid] } : Replica).findConn msg2.source with
    | none => simp [Replica.recv, hp2, hfind2, hmem2, hcs2]
    | some c => simp [Replica.recv, hp2, hfind2, hmem2, hcs2]

/-- Witness for C2_recv_idempotent: version 1 delivered twice to replica 1
of the fixture. -/
theorem C2_recv_idempotent_witness :
    msgAB.payload = .ver 1 ∧
    findReplica wAB 1 = some replB ∧
    (1 : Nat) ∉ replB.files ∧
    alookup wAB.versions 1 = some versionOne ∧
    msgAB.payload = .ver 1 ∧
    msgAB.target = msgAB.target ∧
    (((Replica.recv wAB msgAB drawZero 300).world.filesOf msgAB.target).length
        = (wAB.filesOf msgAB.target).length + 1 ∧
     (Replica.recv wAB msgAB drawZero 300).world.replicaCountOf 1 =
        some (versionOne.replicas + 1) ∧
     (Replica.recv (Replica.recv wAB msgAB drawZero 300).world msgAB drawZero 301).world
        = (Replica.recv wAB msgAB drawZero 300).world) :=
  ⟨by decide, by decide, by decide, by decide, by decide, rfl,
   C2_recv_idempotent wAB msgAB msgAB drawZero drawZero 300 301 1 replB versionOne
     (by decide) (by decide) (by decide) (by decide) (by decide) rfl⟩

/-- Workhorse for holder counting: replacing the files of the replica that
`find?` locates (with unique ids) exchanges its old filter contribution
for its new one. -/
theorem countP_map_update (l : List Replica) (t : Nat) (r : Replica) (fs : List Nat)
    (p : Replica → Bool)
    (hf : l.find? (fun x => x.id == t) = some r)
    (hnd : (l.map Replica.id).Nodup) :
    ((l.map fun x => if x.id = r.id then { x with files := fs } else x).filter p).length
        + (if p r then 1 else 0)
      = (l.filter p).length + (if p { r with files := fs } then 1 else 0) := by
  induction l with
  | nil => simp at hf
  | cons x xs ih =>
      rw [List.map_cons, List.nodup_cons] at hnd
      cases hx : (x.id == t) with
      | true =>
          simp only [List.find?_cons, hx] at hf
          obtain rfl : x = r := by injection hf
          have hxs : ∀ y ∈ xs, y.id ≠ x.id := by
            intro y hy hh
            exact hnd.1 (hh ▸ List.mem_map_of_mem Replica.id hy)
          rw [List.map_cons, if_pos rfl,
            list_map_id_of_fix fun y hy => if_neg (hxs y hy)]
          by_cases h1 : p { x with files := fs } = true <;>
            by_cases h2 : p x = true <;>
              simp [List.filter_cons, h1, h2]
      | false =>
          simp only [List.find?_cons, hx] at hf
          have hrt : (r.id == t) = true := by simpa using List.find?_some hf
          have hxr : x.id ≠ r.id := by
            intro hh
            rw [hh, hrt] at hx
            exact absurd hx (by simp)
          have hstep := ih hf hnd.2
          rw [List.map_cons, if_neg hxr]
          by_cases h2 : p x = true <;> simp [List.filter_cons, h2] <;> omega

/-- Storing a version id at the replica that does not yet hold it raises
its holder count by exactly one. -/
theorem holders_setFiles_insert {w : World} {t : Nat} {r : Replica} {vid : Nat}
    (hr : findReplica w t = some r) (hnd : (w.replicas.map Replica.id).Nodup)
    (hnot : vid ∉ r.files) :
    (w.setFiles r.id (r.files ++ [vid])).holders vid = w.holders vid + 1 := by
  have h := countP_map_update w.replicas t r (r.files ++ [vid])
    (fun x => decide (vid ∈ x.files)) hr hnd
  simp only [decide_eq_true_eq] at h
  rw [if_neg hnot, if_pos (by simp)] at h
  unfold World.holders World.setFiles
  dsimp only
  omega

/-- Storing one version id changes no other id's holder count. -/
theorem holders_setFiles_of_ne {w : World} {t : Nat} {r : Replica} {vid u : Nat}
    (hr : findReplica w t = some r) (hnd : (w.replicas.map Replica.id).Nodup)
    (hu : u ≠ vid) :
    (w.setFiles r.id (r.files ++ [vid])).holders u = w.holders u := by
  have h := countP_map_update w.replicas t r (r.files ++ [vid])
    (fun x => decide (u ∈ x.files)) hr hnd
  have hiff : (u ∈ r.files ++ [vid]) ↔ u ∈ r.files := by
    simp [List.mem_append, hu]
  simp only [decide_eq_true_eq] at h
  unfold World.holders World.setFiles
  dsimp only
  by_cases hur : u ∈ r.files
  · rw [if_pos hur, if_pos (hiff.mpr hur)] at h
    omega
  · rw [if_neg hur, if_neg (fun hh => hur (hiff.mp hh))] at h
    omega

/-- C6: along any `recv` step the world stays coherent — in particular a
Version's `replicated` stamp is set iff the count of distinct replicas
holding its id equals the total replica count, so it is never set while
that count is below the total — the replica count is unchanged, and the
delivered Version's stamp becomes set at this step exactly when its
holder count first reaches the total. -/
theorem C6_replicated_at_full (w : World) (msg : Message) (draw : Nat → Nat)
    (now vid : Nat) (v : Version)
    (hC : w.Coherent) (hp : msg.payload = .ver vid)
    (hv : alookup w.versions vid = some v) :
    (Replica.recv w msg draw now).world.Coherent ∧
    (Replica.recv w msg draw now).world.replicas.length = w.replicas.length ∧
    ∀ v', alookup (Replica.recv w msg draw now).world.versions vid = some v' →
      ((v.replicated = none ∧ v'.replicated.isSome) ↔
        (w.holders vid < w.replicas.length ∧
         (Replica.recv w msg draw now).world.holders vid = w.replicas.length)) := by
  obtain ⟨hnd, hndk, hprop⟩ := hC
  have hmain : (Replica.recv w msg draw now).world = w ∨
      (∃ r, findReplica w msg.target = some r ∧ vid ∉ r.files ∧
        (Replica.recv w msg draw now).world =
          { w.setFiles r.id (r.files ++ [vid]) with
              versions := aupdate w.versions vid
                (fun x => x.addReplica w.replicas.length now) }) := by
    cases hrr : findReplica w msg.target with
    | none =>
        left
        simp [Replica.recv, hp, hrr]
    | some r =>
        by_cases hmem : vid ∈ r.files
        · left
          cases hcs : r.findConn msg.source with
          | none => simp [Replica.recv, hp, hrr, hmem, hcs]
          | some c => simp [Replica.recv, hp, hrr, hmem, hcs]
        · right
          refine ⟨r, rfl, hmem, ?_⟩
          cases hcs : r.findConn msg.source with
          | none => simp [Replica.recv, hp, hrr, hmem, hcs]
          | some c => simp [Replica.recv, hp, hrr, hmem, hcs]
  rcases hmain with hw | ⟨r, hrr, hmem, hw⟩
  · rw [hw]
    refine ⟨⟨hnd, hndk, hprop⟩, rfl, ?_⟩
    intro v' hv'
    rw [hv] at hv'
    injection hv' with hv''
    subst hv''
    constructor
    · rintro ⟨h1, h2⟩
      rw [h1] at h2
      simp at h2
    · rintro ⟨h1, h2⟩
      omega
  · rw [hw]
    have hmemr : r ∈ w.replicas := List.mem_of_find?_eq_some hrr
    have hole : w.holders vid < w.replicas.length := holders_lt_of_not_mem hmemr hmem
    have hvm : (vid, v) ∈ w.versions := mem_of_alookup_eq_some hv
    have hvprop := hprop (vid, v) hvm
    have hrep : v.replicas = w.holders vid := hvprop.1
    have hiff : v.replicated.isSome ↔ v.replicas = w.replicas.length := hvprop.2
    have hnone : v.replicated = none := by
      rcases hvp : v.replicated with _ | t
      · rfl
      · exfalso
        have hfull : v.replicas = w.replicas.length := hiff.mp (by simp [hvp])
        omega
    have hW1holders : ({ w.setFiles r.id (r.files ++ [vid]) with
        versions := aupdate w.versions vid
          (fun x => x.addReplica w.replicas.length now) } : World).holders vid
          = w.holders vid + 1 := holders_setFiles_insert hrr hnd hmem
    have hW1len : ({ w.setFiles r.id (r.files ++ [vid]) with
        versions := aupdate w.versions vid
          (fun x => x.addReplica w.replicas.length now) } : World).replicas.length
          = w.replicas.length := setFiles_replicas_length w r.id (r.files ++ [vid])
    have hndk' : ((aupdate w.versions vid
        (fun x => x.addReplica w.replicas.length now)).map Prod.fst).Nodup := by
      rw [aupdate_map_fst]
      exact hndk
    refine ⟨⟨?_, hndk', ?_⟩, hW1len, ?_⟩
    · have hids : ((w.setFiles r.id (r.files ++ [vid])).replicas.map Replica.id).Nodup := by
        rw [setFiles_map_id]
        exact hnd
      exact hids
    · intro q hq
      have halk : alookup (aupdate w.versions vid
          (fun x => x.addReplica w.replicas.length now)) q.1 = some q.2 :=
        alookup_eq_some_of_mem hndk' hq
      by_cases hqk : q.1 = vid
      · rw [hqk, alookup_aupdate_self, hv] at halk
        simp only [Option.map_some'] at halk
        injection halk with h2
        constructor
        · rw [← h2, hqk, addReplica_replicas, hW1holders, hrep]
        · rw [← h2, hW1len, addReplica_replicated, addReplica_replicas]
          by_cases hfull : v.replicas + 1 = w.replicas.length
          · rw [if_pos hfull]
            simp [hfull]
          · rw [if_neg hfull, hnone]
            simp [hfull]
      · rw [alookup_aupdate_ne _ _ hqk] at halk
        have hqm : (q.1, q.2) ∈ w.versions := mem_of_alookup_eq_some halk
        have hqp := hprop (q.1, q.2) hqm
        have hWother : ({ w.setFiles r.id (r.files ++ [vid]) with
            versions := aupdate w.versions vid
              (fun x => x.addReplica w.replicas.length now) } : World).holders q.1
              = w.holders q.1 := holders_setFiles_of_ne hrr hnd hqk
        constructor
        · rw [hWother]
          exact hqp.1
        · rw [hW1len]
          exact hqp.2
    · intro v' hv'
      have halk : alookup (aupdate w.versions vid
          (fun x => x.addReplica w.replicas.length now)) vid = some v' := hv'
      rw [alookup_aupdate_self, hv] at halk
      simp only [Option.map_some'] at halk
      injection halk with h2
      rw [← h2, hW1holders, addReplica_replicated, hnone]
      constructor
      · rintro ⟨-, hsome⟩
        refine ⟨hole, ?_⟩
        by_cases hfull : v.replicas + 1 = w.replicas.length
        · omega
        · rw [if_neg hfull] at hsome
          exact absurd hsome (by simp)
      · rintro ⟨-, hfull2⟩
        have hcond : v.replicas + 1 = w.replicas.length := by omega
        rw [if_pos hcond]
        exact ⟨rfl, rfl⟩

/-- Witness for C6_replicated_at_full: replica 1 of the two-node fixture
receives version 1 — the holder count reaches 2 of 2 and the stamp is set
at exactly this step. -/
theorem C6_replicated_at_full_witness :
    wAB.Coherent ∧ msgAB.payload = .ver 1 ∧ alookup wAB.versions 1 = some versionOne ∧
    ((Replica.recv wAB msgAB drawZero 300).world.Coherent ∧
     (Replica.recv wAB msgAB drawZero 300).world.replicas.length = wAB.replicas.length ∧
     ∀ v', alookup (Replica.recv wAB msgAB drawZero 300).world.versions 1 = some v' →
       ((versionOne.replicated = none ∧ v'.replicated.isSome) ↔
         (wAB.holders 1 < wAB.replicas.length ∧
          (Replica.recv wAB msgAB drawZero 300).world.holders 1 = wAB.replicas.length))) :=
  ⟨by decide, by decide, by decide,
   C6_replicated_at_full wAB msgAB drawZero 300 1 versionOne
     (by decide) (by decide) (by decide)⟩

/-- Levenshtein distance of the empty log to any log. -/
theorem levDistance_nil_left (ys : List Nat) : levDistance [] ys = ys.length := by
  simp [levDistance]

/-- Levenshtein distance of any log to the empty log. -/
theorem levDistance_nil_right (xs : List Nat) : levDistance xs [] = xs.length := by
  cases xs with
  | nil => simp [levDistance]
  | cons a xs => simp [levDistance]

/-- The cons-cons recurrence of the Levenshtein distance. -/
theorem levDistance_cons_cons (a b : Nat) (xs ys : List Nat) :
    levDistance (a :: xs) (b :: ys) =
      min (min (levDistance xs (b :: ys) + 1) (levDistance (a :: xs) ys + 1))
          (levDistance xs ys + (if a = b then 0 else 1)) := by
  simp [levDistance]

/-- A log is at Levenshtein distance 0 from itself. -/
theorem levDistance_self (xs : List Nat) : levDistance xs xs = 0 := by
  induction xs with
  | nil => simp [levDistance_nil_left]
  | cons a xs ih =>
      rw [levDistance_cons_cons]
      simp [ih]

/-- Symmetry of the Levenshtein distance, by strong induction on the
combined length. -/
theorem levDistance_comm_aux :
    ∀ (n : Nat) (xs ys : List Nat), xs.length + ys.length ≤ n →
      levDistance xs ys = levDistance ys xs := by
  intro n
  induction n with
  | zero =>
      intro xs ys h
      have hx : xs = [] := List.eq_nil_of_length_eq_zero (by omega)
      have hy : ys = [] := List.eq_nil_of_length_eq_zero (by omega)
      subst hx
      subst hy
      rfl
  | succ n ih =>
      intro xs ys h
      rcases xs with _ | ⟨a, xs⟩
      · rw [levDistance_nil_left, levDistance_nil_right]
      · rcases ys with _ | ⟨b, ys⟩
        · rw [levDistance_nil_left, levDistance_nil_right]
        · rw [levDistance_cons_cons, levDistance_cons_cons]
          simp only [List.length_cons] at h
          rw [ih xs (b :: ys) (by simp; omega),
              ih (a :: xs) ys (by simp; omega),
              ih xs ys (by omega)]
          have hif : (if a = b then 0 else 1) = (if b = a then 0 else 1) := by
            by_cases hab : a = b
            · simp [hab]
            · rw [if_neg hab, if_neg fun hh => hab hh.symm]
          rw [hif]
          omega

/-- Symmetry of the Levenshtein distance. -/
theorem levDistance_comm (xs ys : List Nat) : levDistance xs ys = levDistance ys xs :=
  levDistance_comm_aux (xs.length + ys.length) xs ys le_rfl

/-- The Levenshtein distance is bounded by the longer length, by strong
induction on the combined length. -/
theorem levDistance_le_max_aux :
    ∀ (n : Nat) (xs ys : List Nat), xs.length + ys.length ≤ n →
      levDistance xs ys ≤ max xs.length ys.length := by
  intro n
  induction n with
  | zero =>
      intro xs ys h
      have hx : xs = [] := List.eq_nil_of_length_eq_zero (by omega)
      have hy : ys = [] := List.eq_nil_of_length_eq_zero (by omega)
      subst hx
      subst hy
      simp [levDistance_nil_left]
  | succ n ih =>
      intro xs ys h
      rcases xs with _ | ⟨a, xs⟩
      · simp [levDistance_nil_left]
      · rcases ys with _ | ⟨b, ys⟩
        · simp [levDistance_nil_right]
        · rw [levDistance_cons_cons]
          simp only [List.length_cons] at h ⊢
          have h3 := ih xs ys (by omega)
          by_cases hab : a = b <;> simp [hab] <;> omega

/-- The Levenshtein distance is bounded by the longer length. -/
theorem levDistance_le_max (xs ys : List Nat) :
    levDistance xs ys ≤ max xs.length ys.length :=
  levDistance_le_max_aux (xs.length + ys.length) xs ys le_rfl

/-- C9: both validator distances are symmetric and lie in `[0, 1]`, and
both vanish on the diagonal of the report matrix — the normalized
Levenshtein distance of every log to itself is 0, and the Jaccard
distance of every nonempty log to itself is 0 (for two empty logs the
spec's `1 − |∅ ∩ ∅| / |∅ ∪ ∅|` has a zero denominator, and the report
forces the diagonal to zero anyway). -/
theorem C9_distance_properties (A B : List Nat) :
    jaccardDistance A B = jaccardDistance B A ∧
    0 ≤ jaccardDistance A B ∧ jaccardDistance A B ≤ 1 ∧
    normLevDistance A B = normLevDistance B A ∧
    0 ≤ normLevDistance A B ∧ normLevDistance A B ≤ 1 ∧
    normLevDistance A A = 0 ∧
    (A ≠ [] → jaccardDistance A A = 0) := by
  have hratio0 : (0 : ℚ) ≤ ((A.toFinset ∩ B.toFinset).card : ℚ) /
      ((A.toFinset ∪ B.toFinset).card : ℚ) :=
    div_nonneg (by positivity) (by positivity)
  have hratio1 : ((A.toFinset ∩ B.toFinset).card : ℚ) /
      ((A.toFinset ∪ B.toFinset).card : ℚ) ≤ 1 := by
    have hsub : (A.toFinset ∩ B.toFinset).card ≤ (A.toFinset ∪ B.toFinset).card :=
      Finset.card_le_card Finset.inter_subset_union
    rcases Nat.eq_zero_or_pos (A.toFinset ∪ B.toFinset).card with h0 | hpos
    · have hi : (A.toFinset ∩ B.toFinset).card = 0 := by omega
      simp [h0, hi]
    · rw [div_le_one (by exact_mod_cast hpos)]
      exact_mod_cast hsub
  refine ⟨?_, ?_, ?_, ?_, ?_, ?_, ?_, ?_⟩
  · unfold jaccardDistance
    rw [Finset.inter_comm, Finset.union_comm]
  · unfold jaccardDistance
    linarith
  · unfold jaccardDistance
    linarith
  · unfold normLevDistance
    rw [levDistance_comm, max_comm (A.length : ℚ) (B.length : ℚ)]
  · exact div_nonneg (by positivity) (by positivity)
  · unfold normLevDistance
    rcases Nat.eq_zero_or_pos (max A.length B.length) with h0 | hpos
    · have hlev : levDistance A B = 0 := by
        have := levDistance_le_max A B
        omega
      simp [hlev]
    · rw [div_le_one (by exact_mod_cast hpos)]
      exact_mod_cast levDistance_le_max A B
  · unfold normLevDistance
    simp [levDistance_self]
  · intro hA
    unfold jaccardDistance
    rw [Finset.inter_self, Finset.union_self]
    have hcard : A.toFinset.card ≠ 0 := by
      intro hh
      exact hA ((List.toFinset_eq_empty_iff A).mp (Finset.card_eq_zero.mp hh))
    rw [div_self (by exact_mod_cast hcard)]
    ring

/-- Witness for C9_distance_properties: the Jaccard diagonal at the
nonempty log `[1, 2]`. -/
theorem C9_distance_properties_witness :
    ([1, 2] : List Nat) ≠ [] ∧ jaccardDistance [1, 2] [1, 2] = 0 :=
  ⟨by decide,
   (C9_distance_properties [1, 2] [1, 2]).2.2.2.2.2.2.2 (by decide)⟩

end Cloudscope
